import Mathlib

/-!
Shallow embedding of the CRU experimental DMA readout program
(src/CommandLineUtilities/ProgramCruExperimentalDma.cxx and src/Cru/DataFormat.h)
together with proofs of the specification's claims about it.

The embedding models:
- the readout run state (queue, counters, flags) and its transitions
  (fillReadoutQueue / readout / lowPriorityTasks), as written in runDma and
  its helper member functions;
- the initFifo page-count check;
- the checkErrors page validator as a pure function;
- the DataFormat header decoders.
-/

namespace ReadoutCard

/-- Max amount of errors that are recorded into the error stream
(MAX_RECORDED_ERRORS, line 58). -/
def MAX_RECORDED_ERRORS : Nat := 1000

/-- DMA page length in 32-bit words (DMA_PAGE_SIZE / 4 = 8192 / 4, lines 67-70). -/
def DMA_PAGE_SIZE_32 : Nat := 8 * 1024 / 4

/-- NUM_OF_BUFFERS constant (line 72). -/
def NUM_OF_BUFFERS : Nat := 32

/-- FIFO_ENTRIES constant (line 73). -/
def FIFO_ENTRIES : Nat := 4

/-- NUM_PAGES = FIFO_ENTRIES * NUM_OF_BUFFERS (line 74), the ring capacity. -/
def NUM_PAGES : Nat := FIFO_ENTRIES * NUM_OF_BUFFERS

/-- The data emulator writes to every 8th 32-bit word (PATTERN_STRIDE, line 100). -/
def PATTERN_STRIDE : Nat := 8

/-- Timeout of SIGINT handling (HANDLING_SIGINT_TIMEOUT, line 85), in milliseconds. -/
def HANDLING_SIGINT_TIMEOUT : Nat := 10

/-- Low priority counter interval (LOW_PRIORITY_INTERVAL, line 1136). -/
def LOW_PRIORITY_INTERVAL : Nat := 10000

/-- Modulus of 32-bit unsigned arithmetic; uint32_t values are embedded as Nat
with explicit reduction modulo 2^32 where overflow matters. -/
def UINT32_MOD : Nat := 2 ^ 32

/-- Handle enqueued per pushed page (struct Handle, lines 347-351). -/
structure Handle where
  descriptorIndex : Nat
  pageIndex : Nat
  deriving DecidableEq

/-- Generator pattern kinds. The enum used by the program lives in
ReadoutCard/ParameterTypes/GeneratorPattern.h, which is not under src/;
its constructors are evidenced by the enum in include/RORC/ChannelParameters.h
(CONSTANT, ALTERNATING, FLYING_0, FLYING_1, INCREMENTAL, DECREMENTAL, RANDOM)
and by the program's use of GeneratorPattern::Unknown (line 857). -/
inductive GeneratorPattern where
  | constant
  | alternating
  | flying0
  | flying1
  | incremental
  | decremental
  | random
  | unknown
  deriving DecidableEq

/-! ## DataFormat (src/Cru/DataFormat.h)

A page's data is embedded as a function from byte offset to byte value. -/

/-- getWord (DataFormat.h lines 34-39): little-endian 32-bit word read,
memcpy of the 4 bytes at offset 4*i. -/
def getWord (data : Nat → Nat) (i : Nat) : Nat :=
  data (4 * i) + 2 ^ 8 * data (4 * i + 1) + 2 ^ 16 * data (4 * i + 2) + 2 ^ 24 * data (4 * i + 3)

/-- Modelled from the spec: Utilities::getBits comes from Utilities/Util.h which is
not under src/; per the spec (section 4.8) the decoders extract the inclusive bit
ranges lo..hi of a 32-bit word. -/
def getBits (v lo hi : Nat) : Nat :=
  (v >>> lo) % 2 ^ (hi - lo + 1)

/-- getLinkId (DataFormat.h lines 42-45): bits 0-7 of word 3. -/
def getLinkId (data : Nat → Nat) : Nat :=
  getBits (getWord data 3) 0 7

/-- getEventSize (DataFormat.h lines 47-50): bits 16-31 of word 2. -/
def getEventSize (data : Nat → Nat) : Nat :=
  getBits (getWord data 2) 16 31

/-- getPacketCounter (DataFormat.h lines 52-55): bits 8-15 of word 3. -/
def getPacketCounter (data : Nat → Nat) : Nat :=
  getBits (getWord data 3) 8 15

/-! ## Page validator (checkErrors, lines 928-959)

A page's content is embedded as a function from 32-bit-word index to word value. -/

/-- Expected value function of the incremental pattern
(line 950: counter + i / 8, in uint32 arithmetic). -/
def incrementalExpected (counter : Nat) : Nat → Nat :=
  fun i => (counter + i / 8) % UINT32_MOD

/-- Expected value function of the alternating pattern (line 951). -/
def alternatingExpected : Nat → Nat :=
  fun _ => 0xa5a5a5a5

/-- Expected value function of the constant pattern (line 952). -/
def constantExpected : Nat → Nat :=
  fun _ => 0x12345678

/-- The scan loop of the check lambda (lines 932-945): starting at word offset i
with the given number of strides remaining, return the first mismatching
(offset, expected, actual), or none if every checked word matches.
The loop `for i = 0; i < DMA_PAGE_SIZE_32; i += PATTERN_STRIDE` performs exactly
DMA_PAGE_SIZE_32 / PATTERN_STRIDE iterations. -/
def firstMismatchAux (expected page : Nat → Nat) : Nat → Nat → Option (Nat × Nat × Nat)
  | _, 0 => none
  | i, steps + 1 =>
    if page i = expected i then firstMismatchAux expected page (i + PATTERN_STRIDE) steps
    else some (i, expected i, page i)

/-- Full-page scan: first mismatch over offsets 0, 8, ..., DMA_PAGE_SIZE_32 - 8. -/
def checkPage (expected page : Nat → Nat) : Option (Nat × Nat × Nat) :=
  firstMismatchAux expected page 0 (DMA_PAGE_SIZE_32 / PATTERN_STRIDE)

/-- Outcome of one checkErrors call: return value, mErrorCount after the call, and
the error lines appended to mErrorStream (event number, page index, word offset,
expected, actual). -/
structure CheckOutcome where
  hasError : Bool
  errorCount : Nat
  recordedErrors : List (Nat × Nat × Nat × Nat × Nat)
  deriving DecidableEq

/-- The check lambda (lines 930-947) applied to one expected-value function:
on the first mismatch mErrorCount is incremented, and an error line is recorded
iff verbose and the incremented count is below MAX_RECORDED_ERRORS. -/
def checkWithPattern (expected page : Nat → Nat) (eventNumber pageIndex errorCount : Nat)
    (verbose : Bool) : CheckOutcome :=
  match checkPage expected page with
  | none => CheckOutcome.mk false errorCount []
  | some (i, e, a) =>
    CheckOutcome.mk true (errorCount + 1)
      (if verbose && decide (errorCount + 1 < MAX_RECORDED_ERRORS)
        then [(eventNumber, pageIndex, i, e, a)] else [])

/-- checkErrors (lines 928-959): dispatch on the pattern kind; the switch handles
Incremental, Alternating and Constant, and every other kind falls through to
BOOST_THROW_EXCEPTION (lines 953-958), modelled as Except.error. -/
def checkErrors (pattern : GeneratorPattern) (page : Nat → Nat)
    (eventNumber pageIndex counter errorCount : Nat) (verbose : Bool) :
    Except String CheckOutcome :=
  match pattern with
  | GeneratorPattern.incremental =>
    Except.ok (checkWithPattern (incrementalExpected counter) page eventNumber pageIndex errorCount verbose)
  | GeneratorPattern.alternating =>
    Except.ok (checkWithPattern alternatingExpected page eventNumber pageIndex errorCount verbose)
  | GeneratorPattern.constant =>
    Except.ok (checkWithPattern constantExpected page eventNumber pageIndex errorCount verbose)
  | _ => Except.error "Unrecognized generator pattern"

/-- Page for the C6 scenario: checked word at offset i holds 100 + i / 8. -/
def goodPageSeed100 : Nat → Nat :=
  fun i => 100 + i / 8

/-- Same page with word 8 replaced by 999. -/
def badPageSeed100 : Nat → Nat :=
  fun i => if i = 8 then 999 else 100 + i / 8

/-! ## The readout run state machine (runDma and helpers, lines 384-848)

The run state gathers the member variables of ProgramCruExperimentalDma that the
readout loop reads or writes, plus the environment-written inputs (status entries
set by the hardware, the temperature monitor's flag, the SIGINT flag).  Page
memory contents are handled separately by the pure validator model above; the
trace field is a ghost log recording, for each readout in order, the push
sequence number of the page read out and whether an acknowledge was sent for it. -/
structure Config where
  /-- mQueue: front of the list is the queue front (line 1139). -/
  queue : List Handle
  /-- mPushCounter (line 1067). -/
  pushCounter : Nat
  /-- mReadoutCounter (line 1070). -/
  readoutCounter : Nat
  /-- mDescriptorCounter (line 1078). -/
  descriptorCounter : Nat
  /-- mPageIndexCounter (line 1081). -/
  pageIndexCounter : Nat
  /-- mDataGeneratorCounter (line 1073). -/
  dataGeneratorCounter : Int
  /-- mPushEnabled (line 1130). -/
  pushEnabled : Bool
  /-- mDmaLoopBreak (line 1121). -/
  dmaLoopBreak : Bool
  /-- mHandlingSigint (line 1124). -/
  handlingSigint : Bool
  /-- mHandlingSigintStart (line 1127), in abstract clock units. -/
  handlingSigintStart : Nat
  /-- Abstract wall clock, advanced by the environment. -/
  clock : Nat
  /-- mLowPriorityCounter (line 1133). -/
  lowPriorityCounter : Nat
  /-- mInfinitePages = (maxPages <= 0) (lines 312, 1021). -/
  infinitePages : Bool
  /-- mOptions.maxPages (line 1000), an int64. -/
  maxPages : Int
  /-- mOptions.legacyAck (line 1011). -/
  legacyAck : Bool
  /-- mPageAddresses.size() (line 1105), fixed by initFifo. -/
  numPageAddresses : Nat
  /-- Arrival flags of mFifoAddress.user->statusEntries, indexed by descriptor
  index; written by the hardware (environment), cleared by readoutPage. -/
  statusArrived : Nat → Bool
  /-- mTemperatureMonitor.isMaxExceeded(), written by the monitor thread. -/
  tempMaxExceeded : Bool
  /-- Program::isSigInt(), set by the signal handler. -/
  sigInt : Bool
  /-- Ghost readout log: one entry per readoutPage call, in order, holding the
  push sequence number of the page read out and whether the firmware was sent an
  acknowledge for it (lines 416-429). -/
  trace : List (Nat × Bool)

/-- shouldPushQueue (lines 812-815): queue not at ring capacity, AND page budget
left (or infinite mode), AND pushing enabled. -/
def shouldPushQueue (c : Config) : Bool :=
  decide (c.queue.length < NUM_PAGES) &&
    (c.infinitePages || decide ((c.pushCounter : Int) < c.maxPages)) &&
    c.pushEnabled

/-- pushPage (lines 817-829): bind the current page index to the current
descriptor index (the setDescriptor hardware write carries no machine state here),
enqueue the handle, and step the cyclic counters. -/
def pushPage (c : Config) : Config :=
  { c with
    queue := c.queue ++ [Handle.mk c.descriptorCounter c.pageIndexCounter]
    descriptorCounter := (c.descriptorCounter + 1) % NUM_PAGES
    pageIndexCounter := (c.pageIndexCounter + 1) % c.numPageAddresses
    pushCounter := c.pushCounter + 1 }

/-- The while-loop of fillReadoutQueue (lines 835-838), with explicit fuel.
Each iteration of the source loop either falsifies the guard or grows the queue
by one, so the guard can hold for at most NUM_PAGES - queue.length successive
iterations; any fuel beyond that bound computes the exact loop result. -/
def fillAux : Nat → Config → Config
  | 0, c => c
  | fuel + 1, c => if shouldPushQueue c then fillAux fuel (pushPage c) else c

/-- fillReadoutQueue (lines 831-843): push while shouldPushQueue holds.
NUM_PAGES + 1 - queue.length exceeds the maximal number of loop iterations,
so the fuel never runs out before the guard fails. -/
def fillReadoutQueue (c : Config) : Config :=
  fillAux (NUM_PAGES + 1 - c.queue.length) c

/-- readoutQueueHasPageAvailable (lines 845-848): queue non-empty and the status
entry of the front handle's descriptor shows arrived. -/
def readoutQueueHasPageAvailable (c : Config) : Bool :=
  match c.queue with
  | [] => false
  | front :: _ => c.statusArrived front.descriptorIndex

/-- The readout branch of the runDma loop body (lines 416-429): if a page is
available, readoutPage it (file output and error check touch no machine state
here; the page content is reset, the status entry cleared, the data generator
counter advanced and mReadoutCounter incremented, lines 461-490), then send the
acknowledge - on every page, or, with legacyAck, only when the incremented
mReadoutCounter is divisible by 4 - and pop the queue.  The ghost trace records
the push sequence number of the page read out (equal to the pre-increment
mReadoutCounter) and whether the acknowledge was sent. -/
def readoutStep (c : Config) : Config :=
  match c.queue with
  | [] => c
  | front :: rest =>
    if c.statusArrived front.descriptorIndex then
      { c with
        statusArrived := fun d => if d = front.descriptorIndex then false else c.statusArrived d
        dataGeneratorCounter := c.dataGeneratorCounter + 256
        readoutCounter := c.readoutCounter + 1
        trace := c.trace ++
          [(c.readoutCounter, if c.legacyAck then (c.readoutCounter + 1) % 4 == 0 else true)]
        queue := rest }
    else c

/-- The drain checks inside the SIGINT branch (lines 752-764): stop when the
queue has emptied, or when the drain timeout has elapsed. -/
def sigintDrainCheck (c : Config) : Config :=
  if c.queue.length = 0 then { c with dmaLoopBreak := true }
  else if c.clock - c.handlingSigintStart > HANDLING_SIGINT_TIMEOUT then
    { c with dmaLoopBreak := true }
  else c

/-- The SIGINT branch of lowPriorityTasks (lines 743-765): on first entry record
the drain start and disable pushing, then run the drain checks. -/
def sigintTasks (c : Config) : Config :=
  sigintDrainCheck
    (if c.handlingSigint then c
     else { c with handlingSigintStart := c.clock, handlingSigint := true, pushEnabled := false })

/-- lowPriorityTasks (lines 726-805): run only every LOW_PRIORITY_INTERVAL
cycles; a max-temperature abort sets mDmaLoopBreak and returns at once (lines
736-740), else SIGINT handling runs; the status display and the random pauses
touch no state modelled here. -/
def lowPriorityTasks (c : Config) : Config :=
  if c.lowPriorityCounter < LOW_PRIORITY_INTERVAL then
    { c with lowPriorityCounter := c.lowPriorityCounter + 1 }
  else if c.tempMaxExceeded then
    { c with lowPriorityCounter := 0, dmaLoopBreak := true }
  else if c.sigInt then
    sigintTasks { c with lowPriorityCounter := 0 }
  else
    { c with lowPriorityCounter := 0 }

/-- One iteration of the runDma while-loop body past the two break checks
(lines 409-430). -/
def loopBody (c : Config) : Config :=
  readoutStep (fillReadoutQueue (lowPriorityTasks c))

/-- Why the runDma loop ended. -/
inductive StopReason where
  /-- Break via the page limit check (lines 399-402). -/
  | pageLimit
  /-- Break via mDmaLoopBreak (lines 405-407): interrupts, max temperature, etc. -/
  | loopBreak
  deriving DecidableEq

/-- The runDma while-loop (lines 397-431), with fuel; none means the fuel ran
out before the loop ended. -/
def runLoop : Nat → Config → Option (StopReason × Config)
  | 0, _ => none
  | fuel + 1, c =>
    if !c.infinitePages && decide (c.maxPages ≤ (c.readoutCounter : Int)) then
      some (StopReason.pageLimit, c)
    else if c.dmaLoopBreak then
      some (StopReason.loopBreak, c)
    else
      runLoop fuel (loopBody c)

/-- runDma (lines 384-440): fill the first round of pages, then run the loop. -/
def runDma (fuel : Nat) (c : Config) : Option (StopReason × Config) :=
  runLoop fuel (fillReadoutQueue c)

/-- The Pages line of the end-of-run summary (outputStats, line 877):
the run summary reports mReadoutCounter of the final state. -/
def runSummaryPages (r : Option (StopReason × Config)) : Option Nat :=
  r.map (fun p => p.2.readoutCounter)

/-- Environment and loop actions: any interleaving of queue fills, readouts,
low-priority checks, hardware arrivals, clock ticks and monitor/signal flags. -/
inductive Act where
  | fill
  | readout
  | lowPriority
  | arrive (d : Nat)
  | tick
  | raiseTemp
  | raiseSigInt

/-- Apply one action to the run state. -/
def applyAct (c : Config) : Act → Config
  | Act.fill => fillReadoutQueue c
  | Act.readout => readoutStep c
  | Act.lowPriority => lowPriorityTasks c
  | Act.arrive d => { c with statusArrived := fun k => if k = d then true else c.statusArrived k }
  | Act.tick => { c with clock := c.clock + 1 }
  | Act.raiseTemp => { c with tempMaxExceeded := true }
  | Act.raiseSigInt => { c with sigInt := true }

/-- States reachable from a given initial state by any sequence of actions. -/
inductive Reachable (init : Config) : Config → Prop
  | refl : Reachable init init
  | step {c : Config} (a : Act) : Reachable init c → Reachable init (applyAct c a)

/-- The counters and queue state a run starts with: member initializers of
ProgramCruExperimentalDma (lines 1067-1139) at entry to runDma. -/
def InitOk (c : Config) : Prop :=
  c.queue = [] ∧ c.pushCounter = 0 ∧ c.readoutCounter = 0 ∧
    c.descriptorCounter = 0 ∧ c.pageIndexCounter = 0 ∧ c.trace = []

instance (c : Config) : Decidable (InitOk c) := by
  unfold InitOk
  infer_instance

/-- The handle produced by the n-th push (counting from 0): pushPage assigns the
cyclic descriptor index n % NUM_PAGES and page index n % mPageAddresses.size(). -/
def handleOfPush (numPA : Nat) (n : Nat) : Handle :=
  Handle.mk (n % NUM_PAGES) (n % numPA)

/-- Whether the readout of page number n is followed by an acknowledge
(lines 420-427): always without legacyAck, else iff the incremented
mReadoutCounter, which equals n + 1, is divisible by 4. -/
def ackFlag (legacy : Bool) (n : Nat) : Bool :=
  if legacy then (n + 1) % 4 == 0 else true

/-- The run invariant: the queue length is bounded by the ring capacity, the
counters are consistent, the queue holds exactly the handles of pushes
readoutCounter, ..., pushCounter - 1 in push order, and the ghost readout log
lists pages 0, ..., readoutCounter - 1 in order with their acknowledge flags. -/
structure Inv (c : Config) : Prop where
  len_le : c.queue.length ≤ NUM_PAGES
  push_eq : c.pushCounter = c.readoutCounter + c.queue.length
  desc_eq : c.descriptorCounter = c.pushCounter % NUM_PAGES
  pageIdx_eq : c.pageIndexCounter = c.pushCounter % c.numPageAddresses
  queue_eq : c.queue =
    (List.range' c.readoutCounter c.queue.length).map (handleOfPush c.numPageAddresses)
  trace_eq : c.trace =
    (List.range c.readoutCounter).map (fun n => (n, ackFlag c.legacyAck n))

/-- Position of the first true at index start or later in a list of flags. -/
def findTrueFrom : List Bool → Nat → Option Nat
  | [], _ => none
  | b :: rest, 0 => if b then some 0 else Option.map (fun i => i + 1) (findTrueFrom rest 0)
  | _ :: rest, n + 1 => Option.map (fun i => i + 1) (findTrueFrom rest n)

/-- The readout log index of the acknowledge covering page n: the first readout
at or after page n's own whose acknowledge was sent (an acknowledge signals the
firmware that every page consumed since the previous acknowledge is free). -/
def ackCover (tr : List (Nat × Bool)) (n : Nat) : Option Nat :=
  findTrueFrom (tr.map Prod.snd) n

/-! ## Event order of one page consumption (runDma lines 416-429,
readoutPage lines 461-490) -/

/-- The observable operations performed while consuming the page at the queue
front. -/
inductive ReadoutEv where
  /-- printToFile (lines 464-466). -/
  | emitFile
  /-- checkErrors via the data error checking block (lines 469-480). -/
  | validate
  /-- resetPage: set the page content back to BUFFER_DEFAULT_VALUE (line 483). -/
  | resetPage
  /-- statusEntries[descriptorIndex].reset() (line 486). -/
  | clearStatus
  /-- mReadoutCounter++ (line 489). -/
  | incrCounter
  /-- acknowledgePage (lines 420-427, 442-459). -/
  | ack
  /-- mQueue.pop() (line 429). -/
  | pop
  deriving DecidableEq

/-- The operations of one readoutPage call (lines 461-490), in source order:
optional file output, optional validation, page content reset, status entry
clear, then the mReadoutCounter increment. -/
def readoutPageEvents (fileOut checkErr : Bool) : List ReadoutEv :=
  (if fileOut then [ReadoutEv.emitFile] else []) ++
    (if checkErr then [ReadoutEv.validate] else []) ++
    [ReadoutEv.resetPage, ReadoutEv.clearStatus, ReadoutEv.incrCounter]

/-- The operations of one full consumption (lines 416-429): readoutPage, then
the acknowledge (unconditionally, or with legacyAck only when the incremented
mReadoutCounter rcAfter is divisible by 4), then the queue pop. -/
def consumeEvents (fileOut checkErr legacy : Bool) (rcAfter : Nat) : List ReadoutEv :=
  readoutPageEvents fileOut checkErr ++
    (if legacy then (if rcAfter % 4 == 0 then [ReadoutEv.ack] else []) else [ReadoutEv.ack]) ++
    [ReadoutEv.pop]

/-- Position of the first occurrence of an event in a list (list length when
absent). -/
def evPos (e : ReadoutEv) : List ReadoutEv → Nat
  | [] => 0
  | x :: rest => if x = e then 0 else evPos e rest + 1

/-! ## initFifo (lines 535-559) -/

/-- The hardware-visible initialization actions of initFifo after the page-count
check: resetStatusEntries (line 552), then the safety pass writing a valid
descriptor into every slot (lines 556-558). The CruFifoTable layout lives in
src/Cru/CruFifoTable.h, which is not under src/; per the spec (section 4.2) the
descriptor table has one slot per ring entry, so descriptorEntries.size() is the
ring capacity NUM_PAGES. -/
inductive InitFifoStep where
  | resetStatusEntries
  | setDescriptor (pageIndex descriptorIndex : Nat)
  deriving DecidableEq

/-- The error message of the insufficient-pages exception (lines 547-548). -/
def insufficientPagesMsg : String :=
  "Insufficient amount of pages fit in DMA buffer"

/-- initFifo (lines 535-559) as a function of the page count produced by
partitioning the scatter-gather list: if the count does not exceed NUM_PAGES the
insufficient-pages exception is thrown before any table write; otherwise the
status entries are reset and every descriptor slot is initialized. -/
def initFifo (pageCount : Nat) : Except String (List InitFifoStep) :=
  if pageCount ≤ NUM_PAGES then
    Except.error insufficientPagesMsg
  else
    Except.ok (InitFifoStep.resetStatusEntries ::
      (List.range NUM_PAGES).map (fun i => InitFifoStep.setDescriptor i i))

/-! ## Scenario states -/

/-- A run state at entry to runDma, parameterized by the page limit, the
legacyAck option, and the environment's arrival flags: counters and flags hold
their member-initializer values (lines 1067-1139), mInfinitePages = (maxPages
<= 0) (line 312), and the buffer holds 511 pages (a 4 MiB buffer minus one page
reserved for the FIFO, at 8 KiB per page; any count above NUM_PAGES passes the
initFifo check). -/
def mkRunStart (maxPages : Int) (legacy : Bool) (arrived : Nat → Bool) : Config :=
  { queue := []
    pushCounter := 0
    readoutCounter := 0
    descriptorCounter := 0
    pageIndexCounter := 0
    dataGeneratorCounter := -1
    pushEnabled := true
    dmaLoopBreak := false
    handlingSigint := false
    handlingSigintStart := 0
    clock := 0
    lowPriorityCounter := 0
    infinitePages := decide (maxPages ≤ 0)
    maxPages := maxPages
    legacyAck := legacy
    numPageAddresses := 511
    statusArrived := arrived
    tempMaxExceeded := false
    sigInt := false
    trace := [] }

/-- Drain scenario start state: page limit 5, per-page acknowledgment, every
pushed page arrives at once. -/
def drainScenarioStart : Config :=
  mkRunStart 5 false (fun _ => true)

/-- A small run for the FIFO-order witness: page limit 1, immediate arrival. -/
def fifoWitnessStart : Config :=
  mkRunStart 1 false (fun _ => true)

/-- End state of the FIFO-order witness run: one fill, one readout. -/
def fifoWitnessEnd : Config :=
  applyAct (applyAct fifoWitnessStart Act.fill) Act.readout

/-- Legacy-acknowledgment witness run: page limit 5, legacyAck set. -/
def legacyWitnessStart : Config :=
  mkRunStart 5 true (fun _ => true)

/-- End state of the legacy witness run: one fill, five readouts. -/
def legacyWitnessEnd : Config :=
  applyAct (applyAct (applyAct (applyAct (applyAct (applyAct legacyWitnessStart
    Act.fill) Act.readout) Act.readout) Act.readout) Act.readout) Act.readout

/-- Thermal-abort witness state: an infinite-mode run, mid-run at the point
where the low-priority check is due, with the over-temperature flag raised. -/
def thermalWitnessState : Config :=
  { mkRunStart 0 false (fun _ => true) with
    lowPriorityCounter := LOW_PRIORITY_INTERVAL
    tempMaxExceeded := true }

/-- A 64-byte header whose little-endian word at index 3 is 0x00001234. -/
def headerWord3Sample : Nat → Nat :=
  fun j => if j = 12 then 0x34 else if j = 13 then 0x12 else 0

/-! ## Helper lemmas: preservation of the run invariant -/

theorem NUM_PAGES_eq_128 : NUM_PAGES = 128 := rfl

theorem inv_init {c : Config} (h : InitOk c) : Inv c := by
  obtain ⟨hq, hp, hrc, hd, hpi, ht⟩ := h
  constructor <;> simp [hq, hp, hrc, hd, hpi, ht]

theorem shouldPushQueue_length {c : Config} (hg : shouldPushQueue c = true) :
    c.queue.length < NUM_PAGES := by
  unfold shouldPushQueue at hg
  simp only [Bool.and_eq_true, decide_eq_true_eq] at hg
  exact hg.1.1

theorem inv_pushPage {c : Config} (h : Inv c) (hg : shouldPushQueue c = true) :
    Inv (pushPage c) := by
  have hlen := shouldPushQueue_length hg
  constructor
  · simp only [pushPage, List.length_append, List.length_singleton]
    omega
  · simp only [pushPage, List.length_append, List.length_singleton]
    have := h.push_eq
    omega
  · simp only [pushPage]
    rw [h.desc_eq, Nat.mod_add_mod]
  · simp only [pushPage]
    rw [h.pageIdx_eq, Nat.mod_add_mod]
  · simp only [pushPage, List.length_append, List.length_singleton]
    rw [List.range'_1_concat, List.map_append, ← h.queue_eq]
    have hd : c.descriptorCounter = (c.readoutCounter + c.queue.length) % NUM_PAGES := by
      rw [h.desc_eq, h.push_eq]
    have hpi : c.pageIndexCounter = (c.readoutCounter + c.queue.length) % c.numPageAddresses := by
      rw [h.pageIdx_eq, h.push_eq]
    simp [handleOfPush, hd, hpi]
  · exact h.trace_eq

theorem inv_fillAux : ∀ (fuel : Nat) {c : Config}, Inv c → Inv (fillAux fuel c)
  | 0, _, h => h
  | fuel + 1, c, h => by
    unfold fillAux
    cases hg : shouldPushQueue c with
    | false => simpa [hg] using h
    | true =>
      simp only [hg, if_true]
      exact inv_fillAux fuel (inv_pushPage h hg)

theorem inv_fillReadoutQueue {c : Config} (h : Inv c) : Inv (fillReadoutQueue c) :=
  inv_fillAux _ h

theorem inv_readoutStep {c : Config} (h : Inv c) : Inv (readoutStep c) := by
  unfold readoutStep
  cases hq : c.queue with
  | nil =>
    exact ⟨h.len_le, h.push_eq, h.desc_eq, h.pageIdx_eq, h.queue_eq, h.trace_eq⟩
  | cons front rest =>
    cases ha : c.statusArrived front.descriptorIndex with
    | false =>
      simp only [ha, Bool.false_eq_true, if_false]
      exact ⟨h.len_le, h.push_eq, h.desc_eq, h.pageIdx_eq, h.queue_eq, h.trace_eq⟩
    | true =>
      simp only [ha, if_true]
      have hqeq := h.queue_eq
      rw [hq] at hqeq
      simp only [List.length_cons] at hqeq
      rw [List.range'_succ, List.map_cons] at hqeq
      have hfront : front = handleOfPush c.numPageAddresses c.readoutCounter :=
        (List.cons.injEq _ _ _ _).mp hqeq |>.1
      have hrest : rest =
          (List.range' (c.readoutCounter + 1) rest.length).map
            (handleOfPush c.numPageAddresses) :=
        (List.cons.injEq _ _ _ _).mp hqeq |>.2
      have hlen : c.queue.length = rest.length + 1 := by rw [hq]; rfl
      constructor
      · show rest.length ≤ NUM_PAGES
        have := h.len_le
        omega
      · show c.pushCounter = c.readoutCounter + 1 + rest.length
        have := h.push_eq
        omega
      · exact h.desc_eq
      · exact h.pageIdx_eq
      · exact hrest
      · show c.trace ++ [(c.readoutCounter, _)] = _
        rw [List.range_succ, List.map_append, ← h.trace_eq]
        rfl

theorem inv_lowPriorityTasks {c : Config} (h : Inv c) : Inv (lowPriorityTasks c) := by
  unfold lowPriorityTasks sigintTasks sigintDrainCheck
  repeat' split
  all_goals exact ⟨h.len_le, h.push_eq, h.desc_eq, h.pageIdx_eq, h.queue_eq, h.trace_eq⟩

theorem inv_applyAct {c : Config} (a : Act) (h : Inv c) : Inv (applyAct c a) := by
  cases a with
  | fill => exact inv_fillReadoutQueue h
  | readout => exact inv_readoutStep h
  | lowPriority => exact inv_lowPriorityTasks h
  | arrive d => exact ⟨h.len_le, h.push_eq, h.desc_eq, h.pageIdx_eq, h.queue_eq, h.trace_eq⟩
  | tick => exact ⟨h.len_le, h.push_eq, h.desc_eq, h.pageIdx_eq, h.queue_eq, h.trace_eq⟩
  | raiseTemp => exact ⟨h.len_le, h.push_eq, h.desc_eq, h.pageIdx_eq, h.queue_eq, h.trace_eq⟩
  | raiseSigInt => exact ⟨h.len_le, h.push_eq, h.desc_eq, h.pageIdx_eq, h.queue_eq, h.trace_eq⟩

theorem reachable_inv {init c : Config} (hinit : InitOk init) (hr : Reachable init c) :
    Inv c := by
  induction hr with
  | refl => exact inv_init hinit
  | step a _ ih => exact inv_applyAct a ih

theorem fillAux_legacyAck : ∀ (fuel : Nat) (c : Config),
    (fillAux fuel c).legacyAck = c.legacyAck
  | 0, _ => rfl
  | fuel + 1, c => by
    unfold fillAux
    cases hg : shouldPushQueue c with
    | false => simp [hg]
    | true => simp only [hg, if_true]; rw [fillAux_legacyAck fuel]; rfl

theorem readoutStep_legacyAck (c : Config) : (readoutStep c).legacyAck = c.legacyAck := by
  unfold readoutStep
  repeat' split
  all_goals rfl

theorem lowPriorityTasks_legacyAck (c : Config) :
    (lowPriorityTasks c).legacyAck = c.legacyAck := by
  unfold lowPriorityTasks sigintTasks sigintDrainCheck
  repeat' split
  all_goals rfl

theorem applyAct_legacyAck (c : Config) (a : Act) : (applyAct c a).legacyAck = c.legacyAck := by
  cases a with
  | fill => exact fillAux_legacyAck _ _
  | readout => exact readoutStep_legacyAck c
  | lowPriority => exact lowPriorityTasks_legacyAck c
  | arrive d => rfl
  | tick => rfl
  | raiseTemp => rfl
  | raiseSigInt => rfl

theorem reachable_legacyAck {init c : Config} (hr : Reachable init c) :
    c.legacyAck = init.legacyAck := by
  induction hr with
  | refl => rfl
  | step a _ ih => rw [applyAct_legacyAck]; exact ih

/-! ## Helper lemmas: acknowledge order and count -/

theorem findTrueFrom_mono : ∀ (l : List Bool) (m n j : Nat), m ≤ n →
    findTrueFrom l n = some j → ∃ i, findTrueFrom l m = some i ∧ i ≤ j := by
  intro l
  induction l with
  | nil =>
    intro m n j _ hj
    simp [findTrueFrom] at hj
  | cons b rest ih =>
    intro m n j hmn hj
    cases n with
    | zero =>
      have hm : m = 0 := Nat.le_zero.mp hmn
      subst hm
      exact ⟨j, hj, Nat.le_refl j⟩
    | succ k =>
      simp only [findTrueFrom] at hj
      cases hfr : findTrueFrom rest k with
      | none => rw [hfr] at hj; simp at hj
      | some j0 =>
        rw [hfr] at hj
        obtain rfl : j0 + 1 = j := by injection (show some (j0 + 1) = some j from hj)
        cases m with
        | zero =>
          cases hb : b with
          | true => exact ⟨0, by simp [findTrueFrom, hb], Nat.zero_le _⟩
          | false =>
            obtain ⟨i0, hi0, hle⟩ := ih 0 k j0 (Nat.zero_le k) hfr
            refine ⟨i0 + 1, ?_, by omega⟩
            simp [findTrueFrom, hb, hi0]
        | succ m0 =>
          obtain ⟨i0, hi0, hle⟩ := ih m0 k j0 (Nat.le_of_succ_le_succ hmn) hfr
          refine ⟨i0 + 1, ?_, by omega⟩
          simp [findTrueFrom, hi0]

theorem countAcks (rc : Nat) :
    (((List.range rc).map (fun n => (n, (n + 1) % 4 == 0))).filter Prod.snd).length = rc / 4 := by
  induction rc with
  | zero => rfl
  | succ k ih =>
    rw [List.range_succ, List.map_append, List.filter_append, List.length_append, ih]
    by_cases h : (k + 1) % 4 = 0
    · simp only [List.map_cons, List.map_nil]
      simp [List.filter_cons, h]
      omega
    · simp only [List.map_cons, List.map_nil]
      simp [List.filter_cons, h]
      omega

/-! ## Helper lemmas: fields the loop body leaves alone -/

theorem fillAux_flags : ∀ (fuel : Nat) (c : Config),
    (fillAux fuel c).infinitePages = c.infinitePages ∧
      (fillAux fuel c).maxPages = c.maxPages ∧
      (fillAux fuel c).dmaLoopBreak = c.dmaLoopBreak ∧
      (fillAux fuel c).pushEnabled = c.pushEnabled ∧
      (fillAux fuel c).handlingSigint = c.handlingSigint
  | 0, _ => ⟨rfl, rfl, rfl, rfl, rfl⟩
  | fuel + 1, c => by
    unfold fillAux
    cases hg : shouldPushQueue c with
    | false => simp [hg]
    | true =>
      simp only [hg, if_true]
      exact fillAux_flags fuel (pushPage c)

theorem readoutStep_flags (c : Config) :
    (readoutStep c).infinitePages = c.infinitePages ∧
      (readoutStep c).maxPages = c.maxPages ∧
      (readoutStep c).dmaLoopBreak = c.dmaLoopBreak ∧
      (readoutStep c).pushEnabled = c.pushEnabled ∧
      (readoutStep c).handlingSigint = c.handlingSigint := by
  unfold readoutStep
  repeat' split
  all_goals exact ⟨rfl, rfl, rfl, rfl, rfl⟩

theorem loopBody_flags_of_temp {c : Config}
    (htemp : c.tempMaxExceeded = true)
    (hlp : LOW_PRIORITY_INTERVAL ≤ c.lowPriorityCounter) :
    (loopBody c).infinitePages = c.infinitePages ∧
      (loopBody c).maxPages = c.maxPages ∧
      (loopBody c).dmaLoopBreak = true ∧
      (loopBody c).pushEnabled = c.pushEnabled ∧
      (loopBody c).handlingSigint = c.handlingSigint := by
  have hlpt : lowPriorityTasks c = { c with lowPriorityCounter := 0, dmaLoopBreak := true } := by
    unfold lowPriorityTasks
    rw [if_neg (by omega), if_pos htemp]
  unfold loopBody fillReadoutQueue
  obtain ⟨hf1, hf2, hf3, hf4, hf5⟩ := fillAux_flags
    (NUM_PAGES + 1 - (lowPriorityTasks c).queue.length) (lowPriorityTasks c)
  obtain ⟨hr1, hr2, hr3, hr4, hr5⟩ := readoutStep_flags
    (fillAux (NUM_PAGES + 1 - (lowPriorityTasks c).queue.length) (lowPriorityTasks c))
  refine ⟨?_, ?_, ?_, ?_, ?_⟩
  · rw [hr1, hf1, hlpt]
  · rw [hr2, hf2, hlpt]
  · rw [hr3, hf3, hlpt]
  · rw [hr4, hf4, hlpt]
  · rw [hr5, hf5, hlpt]

/-! ## Claim theorems -/

/-- C1: for every state of the readout run reachable from a run start (any
interleaving of fillReadoutQueue pushes, readouts, low-priority checks and
environment actions, in infinite or page-limited mode, with or without
legacy acknowledgment), the ReadoutQueue length never exceeds the ring
capacity NUM_PAGES = FIFO_ENTRIES * NUM_OF_BUFFERS = 128: every push is
guarded by shouldPushQueue, which requires queue length < NUM_PAGES. -/
theorem queue_length_le_ring_capacity (init c : Config)
    (hinit : InitOk init) (hr : Reachable init c) :
    c.queue.length ≤ NUM_PAGES ∧ NUM_PAGES = FIFO_ENTRIES * NUM_OF_BUFFERS ∧
      FIFO_ENTRIES * NUM_OF_BUFFERS = 128 :=
  ⟨(reachable_inv hinit hr).len_le, rfl, rfl⟩

theorem queue_length_le_ring_capacity_witness :
    fifoWitnessEnd.queue.length ≤ NUM_PAGES ∧ NUM_PAGES = FIFO_ENTRIES * NUM_OF_BUFFERS ∧
      FIFO_ENTRIES * NUM_OF_BUFFERS = 128 :=
  queue_length_le_ring_capacity fifoWitnessStart fifoWitnessEnd (by decide)
    (Reachable.step Act.readout (Reachable.step Act.fill Reachable.refl))

/-- C3: acknowledgments are issued in strict push order.  In every reachable
state, (a) the readout log lists the pages exactly in push sequence order
0, 1, ..., readoutCounter - 1 (only the queue front is ever read out, and the
queue is never reordered), and (b) for pages m pushed before n, the
acknowledge covering m is never later than the acknowledge covering n - in
per-page mode and in legacy batched mode alike. -/
theorem acks_follow_push_order (init c : Config)
    (hinit : InitOk init) (hr : Reachable init c) :
    c.trace.map Prod.fst = List.range c.readoutCounter ∧
      ∀ m n j : Nat, m ≤ n → ackCover c.trace n = some j →
        ∃ i, ackCover c.trace m = some i ∧ i ≤ j := by
  have hinv := reachable_inv hinit hr
  constructor
  · rw [hinv.trace_eq, List.map_map]
    have hcomp : (Prod.fst ∘ fun n => (n, ackFlag c.legacyAck n)) = id := by
      funext n
      rfl
    rw [hcomp, List.map_id]
  · intro m n j hmn hj
    exact findTrueFrom_mono _ m n j hmn hj

theorem acks_follow_push_order_witness :
    fifoWitnessEnd.trace.map Prod.fst = List.range fifoWitnessEnd.readoutCounter ∧
      ∃ i, ackCover fifoWitnessEnd.trace 0 = some i ∧ i ≤ 0 := by
  have h := acks_follow_push_order fifoWitnessStart fifoWitnessEnd (by decide)
    (Reachable.step Act.readout (Reachable.step Act.fill Reachable.refl))
  exact ⟨h.1, h.2 0 0 0 (Nat.le_refl 0) (by decide)⟩

/-- C10: in legacy batched-acknowledgment mode, an acknowledge is sent exactly
at the readouts whose incremented readout counter (n + 1 for the page of push
sequence number n) is divisible by 4, so over a whole reachable state the
number of acknowledges is readoutCounter / 4: the first acknowledge comes only
with the 4th page, one acknowledge is issued per 4 pages, and the final
readoutCounter mod 4 pages have no acknowledge of their own. -/
theorem legacy_ack_every_four (init c : Config) (hinit : InitOk init)
    (hleg : init.legacyAck = true) (hr : Reachable init c) :
    c.trace = (List.range c.readoutCounter).map (fun n => (n, (n + 1) % 4 == 0)) ∧
      (c.trace.filter Prod.snd).length = c.readoutCounter / 4 := by
  have hinv := reachable_inv hinit hr
  have hconst : c.legacyAck = init.legacyAck := reachable_legacyAck hr
  have htr : c.trace = (List.range c.readoutCounter).map (fun n => (n, (n + 1) % 4 == 0)) := by
    rw [hinv.trace_eq, hconst, hleg]
    rfl
  refine ⟨htr, ?_⟩
  rw [htr]
  exact countAcks c.readoutCounter

theorem legacy_ack_every_four_witness :
    legacyWitnessEnd.trace =
        (List.range legacyWitnessEnd.readoutCounter).map (fun n => (n, (n + 1) % 4 == 0)) ∧
      (legacyWitnessEnd.trace.filter Prod.snd).length = legacyWitnessEnd.readoutCounter / 4 :=
  legacy_ack_every_four legacyWitnessStart legacyWitnessEnd (by decide) rfl
    (Reachable.step Act.readout (Reachable.step Act.readout (Reachable.step Act.readout
      (Reachable.step Act.readout (Reachable.step Act.readout
        (Reachable.step Act.fill Reachable.refl))))))

/-- C4: with a configured page limit of 5 and every pushed page arriving, the
run pushes exactly 5 pages and the loop terminates via the page-limit check
(StopReason.pageLimit, not the mDmaLoopBreak path used by the SIGINT drain
timeout) with readoutCounter = 5 and the queue empty; no SIGINT was raised and
no drain was ever started. -/
theorem page_limit_five_drain :
    (runDma 10 drainScenarioStart).map
        (fun r => (r.1, r.2.readoutCounter, r.2.pushCounter, r.2.queue, r.2.dmaLoopBreak)) =
      some (StopReason.pageLimit, 5, 5, ([] : List Handle), false) ∧
      drainScenarioStart.sigInt = false ∧ drainScenarioStart.handlingSigint = false := by
  decide

/-- C5: initFifo fails with the insufficient-pages error, before any status
reset or descriptor write, exactly when the page count produced from the
scatter-gather list does not exceed the ring capacity NUM_PAGES; when the count
exceeds the ring capacity, initialization proceeds. -/
theorem init_fifo_insufficient_pages (n : Nat) :
    (initFifo n = Except.error insufficientPagesMsg ↔ n ≤ NUM_PAGES) ∧
      ((∃ steps, initFifo n = Except.ok steps) ↔ NUM_PAGES < n) := by
  by_cases h : n ≤ NUM_PAGES <;> simp [initFifo, h] <;> omega

theorem init_fifo_insufficient_pages_witness :
    ((initFifo 128 = Except.error insufficientPagesMsg ↔ 128 ≤ NUM_PAGES) ∧
      ((∃ steps, initFifo 128 = Except.ok steps) ↔ NUM_PAGES < 128)) ∧
      ((initFifo 511 = Except.error insufficientPagesMsg ↔ 511 ≤ NUM_PAGES) ∧
        ((∃ steps, initFifo 511 = Except.ok steps) ↔ NUM_PAGES < 511)) :=
  ⟨init_fifo_insufficient_pages 128, init_fifo_insufficient_pages 511⟩

set_option maxRecDepth 4000 in
/-- C6: for the incremental pattern with counter seeded to 100, a page whose
checked words hold 100 + i / 8 produces no error and leaves the error count
unchanged; the same page with word 8 = 999 raises exactly one error for the
page, recorded with expected value 101 and actual value 999, and increments
the error count by exactly one (the scan stops at the first mismatch). -/
theorem incremental_check_seed100 :
    (∀ eventNumber pageIndex errorCount : Nat, ∀ verbose : Bool,
        checkErrors GeneratorPattern.incremental goodPageSeed100 eventNumber pageIndex 100
            errorCount verbose =
          Except.ok (CheckOutcome.mk false errorCount [])) ∧
      (∀ eventNumber pageIndex errorCount : Nat,
        (checkErrors GeneratorPattern.incremental badPageSeed100 eventNumber pageIndex 100
              errorCount true).toOption.map CheckOutcome.errorCount =
          some (errorCount + 1)) ∧
      checkErrors GeneratorPattern.incremental badPageSeed100 0 0 100 0 true =
        Except.ok (CheckOutcome.mk true 1 [(0, 0, 8, 101, 999)]) := by
  have hgood : checkPage (incrementalExpected 100) goodPageSeed100 = none := by decide
  have hbad : checkPage (incrementalExpected 100) badPageSeed100 = some (8, 101, 999) := by
    decide
  refine ⟨?_, ?_, ?_⟩
  · intro eventNumber pageIndex errorCount verbose
    simp [checkErrors, checkWithPattern, hgood]
  · intro eventNumber pageIndex errorCount
    simp [checkErrors, checkWithPattern, hbad, Except.toOption]
  · simp [checkErrors, checkWithPattern, hbad]
    decide

theorem incremental_check_seed100_witness :
    checkErrors GeneratorPattern.incremental goodPageSeed100 7 3 100 5 true =
        Except.ok (CheckOutcome.mk false 5 []) ∧
      (checkErrors GeneratorPattern.incremental badPageSeed100 7 3 100 5 true).toOption.map
          CheckOutcome.errorCount =
        some (5 + 1) :=
  ⟨incremental_check_seed100.1 7 3 5 true, incremental_check_seed100.2.1 7 3 5⟩

/-- C7: the page validator fails fatally (an exception, not a recorded data
error) if and only if it is handed a pattern kind outside the recognized
Incremental, Alternating and Constant cases; for every recognized kind it
returns normally whatever the page content. -/
theorem unrecognized_pattern_fatal (pattern : GeneratorPattern) (page : Nat → Nat)
    (eventNumber pageIndex counter errorCount : Nat) (verbose : Bool) :
    ((∃ msg, checkErrors pattern page eventNumber pageIndex counter errorCount verbose =
          Except.error msg) ↔
        (pattern ≠ GeneratorPattern.incremental ∧ pattern ≠ GeneratorPattern.alternating ∧
          pattern ≠ GeneratorPattern.constant)) ∧
      ((∃ out, checkErrors pattern page eventNumber pageIndex counter errorCount verbose =
          Except.ok out) ↔
        (pattern = GeneratorPattern.incremental ∨ pattern = GeneratorPattern.alternating ∨
          pattern = GeneratorPattern.constant)) := by
  cases pattern <;> simp [checkErrors]

theorem unrecognized_pattern_fatal_witness :
    ((∃ msg, checkErrors GeneratorPattern.unknown goodPageSeed100 0 0 100 0 true =
          Except.error msg) ↔
        (GeneratorPattern.unknown ≠ GeneratorPattern.incremental ∧
          GeneratorPattern.unknown ≠ GeneratorPattern.alternating ∧
          GeneratorPattern.unknown ≠ GeneratorPattern.constant)) ∧
      ((∃ out, checkErrors GeneratorPattern.unknown goodPageSeed100 0 0 100 0 true =
          Except.ok out) ↔
        (GeneratorPattern.unknown = GeneratorPattern.incremental ∨
          GeneratorPattern.unknown = GeneratorPattern.alternating ∨
          GeneratorPattern.unknown = GeneratorPattern.constant)) :=
  unrecognized_pattern_fatal GeneratorPattern.unknown goodPageSeed100 0 0 100 0 true

/-- C9: on every 64-byte header whose little-endian 32-bit word at index 3
equals 0x00001234, getLinkId returns 0x34 (bits 0-7 of word 3) and
getPacketCounter returns 0x12 (bits 8-15 of word 3); and both decoders are
pure functions of the input bytes at offsets 12..15 only. -/
theorem data_format_word3 :
    (∀ data : Nat → Nat, getWord data 3 = 0x00001234 →
        getLinkId data = 0x34 ∧ getPacketCounter data = 0x12) ∧
      (∀ d1 d2 : Nat → Nat, (∀ j, 12 ≤ j → j ≤ 15 → d1 j = d2 j) →
        getLinkId d1 = getLinkId d2 ∧ getPacketCounter d1 = getPacketCounter d2) := by
  constructor
  · intro data h
    unfold getLinkId getPacketCounter getBits
    rw [h]
    exact ⟨by decide, by decide⟩
  · intro d1 d2 h
    have h12 := h 12 (by omega) (by omega)
    have h13 := h 13 (by omega) (by omega)
    have h14 := h 14 (by omega) (by omega)
    have h15 := h 15 (by omega) (by omega)
    have hw : getWord d1 3 = getWord d2 3 := by
      show d1 12 + 2 ^ 8 * d1 13 + 2 ^ 16 * d1 14 + 2 ^ 24 * d1 15 =
        d2 12 + 2 ^ 8 * d2 13 + 2 ^ 16 * d2 14 + 2 ^ 24 * d2 15
      rw [h12, h13, h14, h15]
    unfold getLinkId getPacketCounter getBits
    rw [hw]
    exact ⟨rfl, rfl⟩

theorem data_format_word3_witness :
    getLinkId headerWord3Sample = 0x34 ∧ getPacketCounter headerWord3Sample = 0x12 :=
  data_format_word3.1 headerWord3Sample (by decide)

/-- C2, counterexample: with file output and validation enabled, in per-page
acknowledgment mode and incremented readout counter 1, the consumption of the
queue front performs its operations in the order file output, validation, page
content reset, status entry clear, readout counter increment, acknowledge,
queue pop - the counter increment (line 489, inside readoutPage) comes
strictly before the acknowledge (lines 420-427) and is not the last
operation, contrary to the claimed order ... clear, acknowledge, pop,
increment. -/
theorem readout_order_claim_counterexample :
    consumeEvents true true false 1 =
        [ReadoutEv.emitFile, ReadoutEv.validate, ReadoutEv.resetPage, ReadoutEv.clearStatus,
          ReadoutEv.incrCounter, ReadoutEv.ack, ReadoutEv.pop] ∧
      evPos ReadoutEv.incrCounter (consumeEvents true true false 1) <
        evPos ReadoutEv.ack (consumeEvents true true false 1) ∧
      (consumeEvents true true false 1).getLast? ≠ some ReadoutEv.incrCounter := by
  decide

/-- C2, amended: for every page consumed from the front of the queue, the
consumption performs in order: file output if enabled, then validation if
enabled, then the page content reset, then the status entry clear, then the
readoutCounter increment, then the acknowledge (present always in per-page
mode, and in legacy mode exactly when the incremented counter is divisible by
4), and the queue pop last - in particular the content reset is strictly
before the status clear, the status clear strictly before the acknowledge,
and the counter increment comes between the status clear and the
acknowledge rather than last. -/
theorem readout_order_amended (fileOut checkErr legacy : Bool) (rcAfter : Nat) :
    (fileOut = true →
        evPos ReadoutEv.emitFile (consumeEvents fileOut checkErr legacy rcAfter) <
          evPos ReadoutEv.resetPage (consumeEvents fileOut checkErr legacy rcAfter)) ∧
      (checkErr = true →
        evPos ReadoutEv.validate (consumeEvents fileOut checkErr legacy rcAfter) <
          evPos ReadoutEv.resetPage (consumeEvents fileOut checkErr legacy rcAfter)) ∧
      evPos ReadoutEv.resetPage (consumeEvents fileOut checkErr legacy rcAfter) <
        evPos ReadoutEv.clearStatus (consumeEvents fileOut checkErr legacy rcAfter) ∧
      evPos ReadoutEv.clearStatus (consumeEvents fileOut checkErr legacy rcAfter) <
        evPos ReadoutEv.incrCounter (consumeEvents fileOut checkErr legacy rcAfter) ∧
      (ReadoutEv.ack ∈ consumeEvents fileOut checkErr legacy rcAfter →
        evPos ReadoutEv.incrCounter (consumeEvents fileOut checkErr legacy rcAfter) <
            evPos ReadoutEv.ack (consumeEvents fileOut checkErr legacy rcAfter) ∧
          evPos ReadoutEv.ack (consumeEvents fileOut checkErr legacy rcAfter) <
            evPos ReadoutEv.pop (consumeEvents fileOut checkErr legacy rcAfter)) ∧
      (consumeEvents fileOut checkErr legacy rcAfter).getLast? = some ReadoutEv.pop ∧
      (ReadoutEv.ack ∈ consumeEvents fileOut checkErr legacy rcAfter ↔
        (legacy = false ∨ rcAfter % 4 = 0)) := by
  by_cases h4 : rcAfter % 4 = 0 <;>
    rcases fileOut <;> rcases checkErr <;> rcases legacy <;>
      simp_all [consumeEvents, readoutPageEvents, evPos]

theorem readout_order_amended_witness :
    (true = true →
        evPos ReadoutEv.emitFile (consumeEvents true true false 1) <
          evPos ReadoutEv.resetPage (consumeEvents true true false 1)) ∧
      (true = true →
        evPos ReadoutEv.validate (consumeEvents true true false 1) <
          evPos ReadoutEv.resetPage (consumeEvents true true false 1)) ∧
      evPos ReadoutEv.resetPage (consumeEvents true true false 1) <
        evPos ReadoutEv.clearStatus (consumeEvents true true false 1) ∧
      evPos ReadoutEv.clearStatus (consumeEvents true true false 1) <
        evPos ReadoutEv.incrCounter (consumeEvents true true false 1) ∧
      (ReadoutEv.ack ∈ consumeEvents true true false 1 →
        evPos ReadoutEv.incrCounter (consumeEvents true true false 1) <
            evPos ReadoutEv.ack (consumeEvents true true false 1) ∧
          evPos ReadoutEv.ack (consumeEvents true true false 1) <
            evPos ReadoutEv.pop (consumeEvents true true false 1)) ∧
      (consumeEvents true true false 1).getLast? = some ReadoutEv.pop ∧
      (ReadoutEv.ack ∈ consumeEvents true true false 1 ↔
        (false = false ∨ 1 % 4 = 0)) :=
  readout_order_amended true true false 1

/-- C8: if the thermal monitor's max-temperature flag is set and the run is
mid-loop at a point where the low-priority check is due, the loop stops at
that check - two more iterations at most - via mDmaLoopBreak, without
disabling pushes (unlike the SIGINT path), without touching the SIGINT drain
machinery and regardless of the queue contents, and the end-of-run summary is
still produced, reporting the readout counter at the abort. -/
theorem thermal_abort_stops_loop (c : Config) (fuel : Nat)
    (htemp : c.tempMaxExceeded = true)
    (hlp : LOW_PRIORITY_INTERVAL ≤ c.lowPriorityCounter)
    (hbrk : c.dmaLoopBreak = false)
    (hinf : c.infinitePages = true) :
    runLoop (fuel + 2) c = some (StopReason.loopBreak, loopBody c) ∧
      (loopBody c).pushEnabled = c.pushEnabled ∧
      (loopBody c).handlingSigint = c.handlingSigint ∧
      runSummaryPages (runLoop (fuel + 2) c) = some (loopBody c).readoutCounter := by
  obtain ⟨hb1, _, hb3, hb4, hb5⟩ := loopBody_flags_of_temp htemp hlp
  have hrun : runLoop (fuel + 2) c = some (StopReason.loopBreak, loopBody c) := by
    show runLoop (fuel + 1 + 1) c = _
    rw [runLoop, hinf, hbrk]
    simp only [Bool.not_true, Bool.false_and, Bool.false_eq_true, if_false]
    rw [runLoop, hb1, hinf, hb3]
    simp only [Bool.not_true, Bool.false_and, Bool.false_eq_true, if_false, if_true]
  refine ⟨hrun, hb4, hb5, ?_⟩
  rw [hrun]
  rfl

theorem thermal_abort_stops_loop_witness :
    runLoop (0 + 2) thermalWitnessState =
        some (StopReason.loopBreak, loopBody thermalWitnessState) ∧
      (loopBody thermalWitnessState).pushEnabled = thermalWitnessState.pushEnabled ∧
      (loopBody thermalWitnessState).handlingSigint = thermalWitnessState.handlingSigint ∧
      runSummaryPages (runLoop (0 + 2) thermalWitnessState) =
        some (loopBody thermalWitnessState).readoutCounter :=
  thermal_abort_stops_loop thermalWitnessState 0 rfl (by decide) rfl (by decide)

end ReadoutCard
